import Mathlib

/-!
# Verification of `dekatriandateconversion/date_conversion.py`

Shallow embedding of the Dekatrian/Gregorian date-conversion module.

Modelling conventions:
* Python integers are `Int`.
* Python `%` is floor modulus; every modulus in this module is positive
  (4, 7, 28, 100, 400), where it agrees with Lean's Euclidean `%` on `Int`.
* `int((year_day - 1) / 28)` is true division followed by truncation toward
  zero, i.e. `Int.tdiv`; the numerator is non-negative on every reachable
  branch, where this agrees with floor and Euclidean division.
* `calendar.isleap` is `isleap`; Python's implicit bool-to-int coercion of
  `calendar.isleap(year)` inside arithmetic is `leap`.
* Running past the end of the 12-entry month-length tuple (a Python
  `IndexError` in the `while` loop of `year_day_on_greg_date`) is `none`;
  functions that cannot fail stay total.
-/

namespace DekatrianDateConversion

/-- `calendar.isleap(year)`: proleptic Gregorian leap rule, leap iff
divisible by 4 and (not divisible by 100 or divisible by 400). -/
def isleap (year : Int) : Bool :=
  year % 4 == 0 && (year % 100 != 0 || year % 400 == 0)

/-- Python's bool-to-int coercion of `calendar.isleap(year)` when it is used
in arithmetic: 1 for a leap year, 0 otherwise. -/
def leap (year : Int) : Int :=
  if isleap year then 1 else 0

/-- `dekatrian_week(dek_day, dek_month)`: Dekatrian week day, 0 for an
Achronian (intercalary) day, else `((dek_day - 1) % 7) + 1`. -/
def dekatrian_week (dek_day dek_month : Int) : Int :=
  if dek_month = 0 then 0
  else (dek_day - 1) % 7 + 1

/-- `week_day_on_first_auroran(dek_year)`: the closed-form congruence
`((1 + 5*(y % 4) + 4*(y % 100) + 6*(y % 400)) % 7) + 1`. -/
def week_day_on_first_auroran (dek_year : Int) : Int :=
  (1 + 5 * (dek_year % 4) + 4 * (dek_year % 100) + 6 * (dek_year % 400)) % 7 + 1

/-- `dek_to_week(dek_day, dek_month, dek_year)`: Gregorian week day of a
Dekatrian date, with the special adjustment for intercalary days. -/
def dek_to_week (dek_day dek_month dek_year : Int) : Int :=
  let week_day :=
    (week_day_on_first_auroran dek_year + dekatrian_week dek_day dek_month - 2) % 7 + 1
  if dek_month = 0 then (week_day - 3 + dek_day) % 7 + 1
  else week_day

/-- `year_day_on_deka_date(dek_day, dek_month, dek_year)`: ordinal day of the
year of a Dekatrian date; Achronian is day 1. -/
def year_day_on_deka_date (dek_day dek_month dek_year : Int) : Int :=
  if dek_month = 0 then dek_day
  else leap dek_year + 1 + (dek_month - 1) * 28 + dek_day

/-- The tuple `gregorian_calendar_months` built (identically) inside
`year_day_on_greg_date` and `dek_to_greg`: JAN .. DEC month lengths. -/
def gregorian_calendar_months (year : Int) : List Int :=
  [31, 28 + leap year, 31, 30, 31, 30, 31, 31, 30, 31, 30, 31]

/-- The `while i < (month - 1)` summation loop of `year_day_on_greg_date`:
adds up the first `n` entries of `months`; `none` models the `IndexError`
raised when the loop runs past the end of the 12-entry tuple. -/
def sum_months_while (months : List Int) (n : Int) : Option Int :=
  if n ≤ 0 then some 0
  else
    match months with
    | [] => none
    | d :: rest => (sum_months_while rest (n - 1)).map (fun s => d + s)

/-- `year_day_on_greg_date(day, month, year)`: ordinal day of the year of a
Gregorian date; `none` models the `IndexError` for `month ≥ 14`. -/
def year_day_on_greg_date (day month year : Int) : Option Int :=
  (sum_months_while (gregorian_calendar_months year) (month - 1)).map
    (fun days => days + day)

/-- The `for month, days in enumerate(gregorian_calendar_months, start=1)`
loop of `dek_to_greg`: repeatedly subtracts month lengths while `year_day`
exceeds them; stops (`break`) at the first month where it fits, and after the
last month the loop variable keeps its final value. Returns the remaining
`year_day` and the final `month`. -/
def month_walk : Int → List Int → Int → Int × Int
  | year_day, [], month => (year_day, month)
  | year_day, [days], month =>
      (if year_day > days then year_day - days else year_day, month)
  | year_day, days :: next :: rest, month =>
      if year_day > days then month_walk (year_day - days) (next :: rest) (month + 1)
      else (year_day, month)

/-- `dek_to_greg(dek_day, dek_month, dek_year)`: as written in the source, it
computes `year_day = year_day_on_greg_date(dek_day, dek_month, dek_year)` and
then walks the Gregorian month table. -/
def dek_to_greg (dek_day dek_month dek_year : Int) : Option (Int × Int × Int) :=
  (year_day_on_greg_date dek_day dek_month dek_year).map
    (fun year_day =>
      let p := month_walk year_day (gregorian_calendar_months dek_year) 1
      (p.1, p.2, dek_year))

/-- `greg_to_dek(day, month, year)`: Gregorian to Dekatrian conversion. -/
def greg_to_dek (day month year : Int) : Option (Int × Int × Int) :=
  (year_day_on_greg_date day month year).map
    (fun year_day =>
      if year_day > 1 + leap year then
        ((year_day - (1 + leap year) - 1) % 28 + 1,
         Int.tdiv (year_day - (1 + leap year) - 1) 28 + 1,
         year)
      else
        (day, 0, year))

/-- The conversion the specification describes for `dekatrianToGregorian`:
the year ordinal is taken with `year_day_on_deka_date` (the Dekatrian
day-of-year function) and then converted by the same Gregorian month walk. -/
def dek_to_greg_spec (dek_day dek_month dek_year : Int) : Int × Int × Int :=
  let p := month_walk (year_day_on_deka_date dek_day dek_month dek_year)
    (gregorian_calendar_months dek_year) 1
  (p.1, p.2, dek_year)

/-- Validity of a Gregorian date: month 1..12 and day within the month's
length for that year (the spec's "day valid for that month and year"). -/
def month_length (m y : Int) : Int :=
  if m = 2 then 28 + leap y
  else if m = 4 ∨ m = 6 ∨ m = 9 ∨ m = 11 then 30
  else 31

/-- A valid Gregorian date. -/
def valid_greg (d m y : Int) : Prop :=
  1 ≤ m ∧ m ≤ 12 ∧ 1 ≤ d ∧ d ≤ month_length m y

instance (d m y : Int) : Decidable (valid_greg d m y) := by
  unfold valid_greg; infer_instance

/-- Reference day count of the proleptic Gregorian calendar: the number of
days in the years 1, ..., y-1 (so 0 for year 1). -/
def days_before_year (y : Nat) : Nat :=
  365 * (y - 1) + (y - 1) / 4 - (y - 1) / 100 + (y - 1) / 400

/-- Standard reference weekday (1 = Sunday ... 7 = Saturday) of the day with
1-based ordinal `n` in proleptic Gregorian year `y ≥ 1`, anchored at the fact
that January 1 of year 1 is a Monday. -/
def ref_weekday (y n : Nat) : Nat :=
  (days_before_year y + n) % 7 + 1

/-- C1: the round-trip law fails on the code. The Dekatrian date `1\1\2016`
(month 1, day 1: valid) maps under `dek_to_greg` to Gregorian `(1, 1, 2016)`,
and `greg_to_dek` maps that back to `(1, 0, 2016)`, not to `(1, 1, 2016)`:
`dek_to_greg` takes its year ordinal with `year_day_on_greg_date` instead of
`year_day_on_deka_date`, so the two conversions do not invert each other. -/
theorem c1_roundtrip_fails_on_code :
    dek_to_greg 1 1 2016 = some (1, 1, 2016) ∧
    greg_to_dek 1 1 2016 = some (1, 0, 2016) ∧
    ((1 : Int), (0 : Int), (2016 : Int)) ≠ ((1 : Int), (1 : Int), (2016 : Int)) := by
  refine ⟨rfl, rfl, by decide⟩

/-- C2: `dek_to_greg` does not route through the Dekatrian day-of-year
function. At the Dekatrian date `10\10\2017` the code returns `(10, 10, 2017)`
(it read the ordinal off the Gregorian table), while the composition the
specification describes — `year_day_on_deka_date` (which gives ordinal 263)
followed by the Gregorian month walk — yields `(20, 9, 2017)`. -/
theorem c2_dek_to_greg_uses_wrong_ordinal :
    dek_to_greg 10 10 2017 = some (10, 10, 2017) ∧
    dek_to_greg_spec 10 10 2017 = (20, 9, 2017) ∧
    year_day_on_deka_date 10 10 2017 = 263 ∧
    ((10 : Int), (10 : Int), (2017 : Int)) ≠ ((20 : Int), (9 : Int), (2017 : Int)) := by
  refine ⟨rfl, rfl, by decide, by decide⟩

/-- C5: the last Dekatrian day `28\13\y` has year ordinal `365 + leap y`
for every year, so the Dekatrian year length matches the Gregorian one. -/
theorem c5_leap_year_day_count (y : Int) :
    year_day_on_deka_date 28 13 y = 365 + leap y := by
  rw [year_day_on_deka_date, if_neg (by norm_num)]
  ring

/-- C7 counterexample: `greg_to_dek(3, 1, 2016)` does not return an
intercalary date: its month component is 1, not 0 (year-day 3 exceeds the
intercalary threshold `1 + leap 2016 = 2`). -/
theorem c7_counterexample :
    (greg_to_dek 3 1 2016).map (fun t => t.2.1) ≠ some 0 := by
  decide

/-- C7 amended: `greg_to_dek(3, 1, 2016)` returns `(1, 1, 2016)`: day 1 of
the first regular Dekatrian month, because year-day 3 of the leap year 2016
lies just past its two intercalary days. -/
theorem c7_amended :
    greg_to_dek 3 1 2016 = some (1, 1, 2016) := rfl

/-- The first Auroran (Dekatrian date `1\1\y`) has year ordinal
`leap y + 2`: it comes right after the one or two intercalary days. -/
lemma first_auroran_ordinal (y : Int) : year_day_on_deka_date 1 1 y = leap y + 2 := by
  rw [year_day_on_deka_date, if_neg (by norm_num)]; ring

/-- The weekday congruence only depends on the year modulo 400. -/
lemma week_day_periodic (y : Int) :
    week_day_on_first_auroran (y + 400) = week_day_on_first_auroran y := by
  rw [week_day_on_first_auroran, week_day_on_first_auroran]
  have h4 : (y + 400) % 4 = y % 4 := by omega
  have h100 : (y + 400) % 100 = y % 100 := by omega
  have h400 : (y + 400) % 400 = y % 400 := by omega
  rw [h4, h100, h400]

/-- The leap-year indicator only depends on the year modulo 400. -/
lemma leap_periodic (y : Int) : leap (y + 400) = leap y := by
  rw [leap, leap, isleap, isleap]
  have h4 : (y + 400) % 4 = y % 4 := by omega
  have h100 : (y + 400) % 100 = y % 100 := by omega
  have h400 : (y + 400) % 400 = y % 400 := by omega
  rw [h4, h100, h400]

/-- A 400-year Gregorian cycle has 146097 days. -/
lemma days_before_periodic (y : Nat) (h : 1 ≤ y) :
    days_before_year (y + 400) = days_before_year y + 146097 := by
  rw [days_before_year, days_before_year]; omega

/-- The 400-year cycle is a whole number of weeks (146097 = 7 * 20871), so
the reference weekday is 400-year periodic. -/
lemma ref_weekday_periodic (y n : Nat) (h : 1 ≤ y) :
    ref_weekday (y + 400) n = ref_weekday y n := by
  rw [ref_weekday, ref_weekday, days_before_periodic y h]; omega

set_option maxRecDepth 4000 in
/-- The amended C3 statement checked exhaustively over one 400-year cycle. -/
lemma c3_base : ∀ y : Nat, y < 401 → 1 ≤ y →
    week_day_on_first_auroran (y : Int) =
      ((ref_weekday y (year_day_on_deka_date 1 1 (y : Int)).toNat : Nat) : Int) := by
  decide

/-- C3 counterexample: the congruence in `week_day_on_first_auroran` does not
return the weekday of January 1st. For 2016 it returns 1 (Sunday), while the
standard reference weekday of January 1st (year ordinal 1) of proleptic
Gregorian 2016 is 6 (Friday). -/
theorem c3_counterexample :
    week_day_on_first_auroran 2016 = 1 ∧ ref_weekday 2016 1 = 6 ∧ (1 : Int) ≠ 6 := by
  exact ⟨by decide, by decide, by decide⟩

/-- C3 amended: for every year `y ≥ 1`, `week_day_on_first_auroran y` is the
standard reference weekday (1 = Sunday ... 7 = Saturday) of the first Auroran
of year `y` — the day whose year ordinal is `year_day_on_deka_date 1 1 y =
leap y + 2`, i.e. January 2 in common years and January 3 in leap years —
not the weekday of January 1st. -/
theorem c3_amended (y : Nat) (hy : 1 ≤ y) :
    week_day_on_first_auroran (y : Int) =
      ((ref_weekday y (year_day_on_deka_date 1 1 (y : Int)).toNat : Nat) : Int) := by
  induction y using Nat.strong_induction_on with
  | _ y ih =>
    by_cases hle : y ≤ 400
    · exact c3_base y (by omega) hy
    · obtain ⟨z, rfl⟩ : ∃ z, y = z + 400 := ⟨y - 400, by omega⟩
      have hz : 1 ≤ z := by omega
      have hrec := ih z (by omega) hz
      have hc : ((z + 400 : Nat) : Int) = (z : Int) + 400 := by push_cast; ring
      rw [hc, week_day_periodic, first_auroran_ordinal, leap_periodic,
        ref_weekday_periodic _ _ hz]
      rw [first_auroran_ordinal] at hrec
      exact hrec

/-- Witness for C3 amended at the concrete year 2016. -/
theorem c3_amended_witness :
    1 ≤ 2016 ∧
    week_day_on_first_auroran ((2016 : Nat) : Int) =
      ((ref_weekday 2016 (year_day_on_deka_date 1 1 ((2016 : Nat) : Int)).toNat : Nat) : Int) :=
  ⟨by norm_num, c3_amended 2016 (by norm_num)⟩

/-- C6: for a regular Dekatrian date (month 1..13, day 1..28) `dek_to_week`
is `(week_day_on_first_auroran y + dekatrian_week d m - 2) % 7 + 1`, and for
an intercalary date (month 0, day 1 or 2) it is `((base - 3 + d) % 7) + 1`
with `base` the same expression (where `dekatrian_week d 0 = 0`). -/
theorem c6_dek_to_week_formula (d m y : Int) :
    (1 ≤ m → m ≤ 13 → 1 ≤ d → d ≤ 28 →
      dek_to_week d m y =
        (week_day_on_first_auroran y + dekatrian_week d m - 2) % 7 + 1) ∧
    (m = 0 → d = 1 ∨ d = 2 →
      dek_to_week d m y =
        ((week_day_on_first_auroran y + dekatrian_week d m - 2) % 7 + 1 - 3 + d) % 7 + 1) := by
  constructor
  · intro h1 _ _ _
    simp only [dek_to_week]
    rw [if_neg (by omega)]
  · intro hm _
    subst hm
    simp only [dek_to_week, if_pos]

/-- Witness for C6 at the regular date `5\3\2020` and the intercalary date
`1\0\2016`. -/
theorem c6_witness :
    dek_to_week 5 3 2020 =
      (week_day_on_first_auroran 2020 + dekatrian_week 5 3 - 2) % 7 + 1 ∧
    dek_to_week 1 0 2016 =
      ((week_day_on_first_auroran 2016 + dekatrian_week 1 0 - 2) % 7 + 1 - 3 + 1) % 7 + 1 :=
  ⟨(c6_dek_to_week_formula 5 3 2020).1 (by norm_num) (by norm_num) (by norm_num)
      (by norm_num),
   (c6_dek_to_week_formula 1 0 2016).2 rfl (Or.inl rfl)⟩

/-- C8: whenever `dek_to_greg` or `greg_to_dek` returns a tuple, its year
component is the input year unchanged. -/
theorem c8_year_unchanged (d m y : Int) (t : Int × Int × Int) :
    (dek_to_greg d m y = some t → t.2.2 = y) ∧
    (greg_to_dek d m y = some t → t.2.2 = y) := by
  constructor
  · intro h
    rw [dek_to_greg] at h
    cases heq : year_day_on_greg_date d m y with
    | none => rw [heq] at h; simp at h
    | some o =>
        rw [heq] at h
        simp only [Option.map_some', Option.some.injEq] at h
        rw [← h]
  · intro h
    rw [greg_to_dek] at h
    cases heq : year_day_on_greg_date d m y with
    | none => rw [heq] at h; simp at h
    | some o =>
        rw [heq] at h
        simp only [Option.map_some', Option.some.injEq] at h
        split at h <;> rw [← h]

/-- Witness for C8 at the concrete input `(1, 1, 2016)` for both
conversions. -/
theorem c8_witness :
    ((1 : Int), (1 : Int), (2016 : Int)).2.2 = 2016 ∧
    ((1 : Int), (0 : Int), (2016 : Int)).2.2 = 2016 :=
  ⟨(c8_year_unchanged 1 1 2016 (1, 1, 2016)).1 rfl,
   (c8_year_unchanged 1 1 2016 (1, 0, 2016)).2 rfl⟩

/-- The leap-year indicator is 0 or 1. -/
lemma leap_cases (y : Int) : leap y = 0 ∨ leap y = 1 := by
  rw [leap]; split <;> simp

/-- The summation loop does nothing when asked for at most zero entries. -/
lemma sum_months_while_nonpos (months : List Int) (n : Int) (h : n ≤ 0) :
    sum_months_while months n = some 0 := by
  rw [sum_months_while.eq_def, if_pos h]

/-- One step of the summation loop. -/
lemma sum_months_while_cons (d : Int) (rest : List Int) (n : Int) (h : 0 < n) :
    sum_months_while (d :: rest) n =
      (sum_months_while rest (n - 1)).map (fun s => d + s) := by
  rw [sum_months_while.eq_def, if_neg (by omega)]

/-- The summation loop succeeds whenever it is asked for no more entries than
the table has. -/
lemma sum_months_while_isSome :
    ∀ (months : List Int) (n : Int), n ≤ months.length →
      ∃ s, sum_months_while months n = some s := by
  intro months
  induction months with
  | nil =>
      intro n h
      simp only [List.length_nil, Nat.cast_zero] at h
      exact ⟨0, sum_months_while_nonpos [] n h⟩
  | cons d rest ih =>
      intro n h
      by_cases hn : n ≤ 0
      · exact ⟨0, sum_months_while_nonpos (d :: rest) n hn⟩
      · obtain ⟨s, hs⟩ := ih (n - 1) (by simp at h ⊢; omega)
        refine ⟨d + s, ?_⟩
        rw [sum_months_while_cons d rest n (by omega), hs, Option.map_some']

/-- For a valid Gregorian date the ordinal computation succeeds, the ordinal
lies in `1 .. 365 + leap y`, and an ordinal within the intercalary threshold
can only come from January with `day = ordinal`. -/
lemma greg_ordinal_bounds (d m y : Int) (hv : valid_greg d m y) :
    ∃ o, year_day_on_greg_date d m y = some o ∧
      (1 ≤ o ∧ o ≤ 365 + leap y ∧ (o ≤ 1 + leap y → m = 1 ∧ o = d)) := by
  obtain ⟨h1, h2, h3, h4⟩ := hv
  have hl := leap_cases y
  rw [month_length] at h4
  rw [year_day_on_greg_date, gregorian_calendar_months]
  interval_cases m <;>
    norm_num at h4 <;>
    norm_num [sum_months_while_cons, sum_months_while_nonpos, Option.map_some'] <;>
    omega

/-- The month index produced by the month walk stays between its start value
and start value plus table length minus one. -/
lemma month_walk_month_bounds :
    ∀ (months : List Int), months ≠ [] → ∀ (yd m0 : Int),
      m0 ≤ (month_walk yd months m0).2 ∧
        (month_walk yd months m0).2 ≤ m0 + (months.length : Int) - 1 := by
  intro months
  induction months with
  | nil => intro h; exact absurd rfl h
  | cons d rest ih =>
      intro _ yd m0
      cases rest with
      | nil => simp [month_walk]
      | cons e rest2 =>
          simp only [month_walk]
          split
          · have := ih (by simp) (yd - d) (m0 + 1)
            simp only [List.length_cons] at this ⊢
            push_cast at this ⊢
            omega
          · simp
            omega

/-- C4: for a valid Gregorian date, `greg_to_dek` returns month 0 only when
the Gregorian year ordinal is at most `1 + leap y`, and any larger ordinal
yields a month of at least 1. -/
theorem c4_intercalary_bound (d m y : Int) (_hv : valid_greg d m y) :
    ∀ o dd dm dy, year_day_on_greg_date d m y = some o →
      greg_to_dek d m y = some (dd, dm, dy) →
      (dm = 0 → o ≤ 1 + leap y) ∧ (1 + leap y < o → 1 ≤ dm) := by
  intro o dd dm dy ho ht
  rw [greg_to_dek, ho] at ht
  simp only [Option.map_some', Option.some.injEq] at ht
  by_cases hgt : o > 1 + leap y
  · rw [if_pos hgt] at ht
    simp only [Prod.mk.injEq] at ht
    obtain ⟨rfl, rfl, rfl⟩ := ht
    have hge : (0 : Int) ≤ o - (1 + leap y) - 1 := by omega
    rw [Int.tdiv_eq_ediv hge (by norm_num)]
    constructor
    · intro h0
      omega
    · intro _
      omega
  · rw [if_neg hgt] at ht
    simp only [Prod.mk.injEq] at ht
    obtain ⟨rfl, rfl, rfl⟩ := ht
    exact ⟨fun _ => by omega, fun h => absurd h hgt⟩

/-- Witness for C4 at the Gregorian date 15 August 2017, whose ordinal is 227
and whose Dekatrian image is `(2, 9, 2017)`. -/
theorem c4_witness :
    valid_greg 15 8 2017 ∧
    (((9 : Int) = 0 → (227 : Int) ≤ 1 + leap 2017) ∧
      (1 + leap 2017 < 227 → (1 : Int) ≤ 9)) :=
  ⟨by decide,
   c4_intercalary_bound 15 8 2017 (by decide) 227 2 9 2017 (by decide) (by decide)⟩

/-- C9: for every valid Gregorian date, `greg_to_dek` succeeds and returns a
structurally valid Dekatrian date: month 0 with day 1, or day 2 in a leap
year, or a month in 1..13 with a day in 1..28. -/
theorem c9_structural_validity (d m y : Int) (hv : valid_greg d m y) :
    (greg_to_dek d m y).isSome = true ∧
    ∀ dd dm dy, greg_to_dek d m y = some (dd, dm, dy) →
      ((dm = 0 ∧ (dd = 1 ∨ (dd = 2 ∧ leap y = 1))) ∨
        (1 ≤ dm ∧ dm ≤ 13 ∧ 1 ≤ dd ∧ dd ≤ 28)) := by
  obtain ⟨o, ho, hb⟩ := greg_ordinal_bounds d m y hv
  have hl := leap_cases y
  constructor
  · rw [greg_to_dek, ho]; rfl
  · intro dd dm dy ht
    rw [greg_to_dek, ho] at ht
    simp only [Option.map_some', Option.some.injEq] at ht
    by_cases hgt : o > 1 + leap y
    · rw [if_pos hgt] at ht
      simp only [Prod.mk.injEq] at ht
      obtain ⟨rfl, rfl, rfl⟩ := ht
      right
      have hge : (0 : Int) ≤ o - (1 + leap y) - 1 := by omega
      rw [Int.tdiv_eq_ediv hge (by norm_num)]
      omega
    · rw [if_neg hgt] at ht
      simp only [Prod.mk.injEq] at ht
      obtain ⟨rfl, rfl, rfl⟩ := ht
      left
      obtain ⟨hm1, hod⟩ := hb.2.2 (by omega)
      exact ⟨rfl, by omega⟩

/-- Witness for C9 at the Gregorian date 15 August 2017. -/
theorem c9_witness :
    (greg_to_dek 15 8 2017).isSome = true ∧
    (((9 : Int) = 0 ∧ ((2 : Int) = 1 ∨ ((2 : Int) = 2 ∧ leap 2017 = 1))) ∨
      (1 ≤ (9 : Int) ∧ (9 : Int) ≤ 13 ∧ 1 ≤ (2 : Int) ∧ (2 : Int) ≤ 28)) :=
  ⟨(c9_structural_validity 15 8 2017 (by decide)).1,
   (c9_structural_validity 15 8 2017 (by decide)).2 2 9 2017 (by decide)⟩

/-- C10: for any day and year and any month in 0..13, `dek_to_greg` succeeds
(the month walk stops at December rather than running past the table) and the
month component of its result lies in 1..12, even when the computed ordinal
exceeds the length of the year. -/
theorem c10_dek_to_greg_safe (d m y : Int) (h0 : 0 ≤ m) (h13 : m ≤ 13) :
    (dek_to_greg d m y).isSome = true ∧
    ∀ gd gm gy, dek_to_greg d m y = some (gd, gm, gy) → 1 ≤ gm ∧ gm ≤ 12 := by
  obtain ⟨s, hs⟩ := sum_months_while_isSome (gregorian_calendar_months y) (m - 1)
    (by rw [gregorian_calendar_months]; simp; omega)
  have hyd : year_day_on_greg_date d m y = some (s + d) := by
    rw [year_day_on_greg_date, hs, Option.map_some']
  constructor
  · rw [dek_to_greg, hyd]; rfl
  · intro gd gm gy ht
    rw [dek_to_greg, hyd] at ht
    simp only [Option.map_some', Option.some.injEq] at ht
    have hw := month_walk_month_bounds (gregorian_calendar_months y)
      (by simp [gregorian_calendar_months]) (s + d) 1
    rw [gregorian_calendar_months] at hw
    simp only [List.length_cons, List.length_nil] at hw
    norm_num at hw
    simp only [Prod.mk.injEq] at ht
    obtain ⟨rfl, rfl, rfl⟩ := ht
    rw [gregorian_calendar_months]
    omega

/-- Witness for C10 at day 999 of month 13 of 2018: the computed ordinal 1364
overflows the year, yet the walk returns December. -/
theorem c10_witness :
    (dek_to_greg 999 13 2018).isSome = true ∧ (1 ≤ (12 : Int) ∧ (12 : Int) ≤ 12) :=
  ⟨(c10_dek_to_greg_safe 999 13 2018 (by norm_num) (by norm_num)).1,
   (c10_dek_to_greg_safe 999 13 2018 (by norm_num) (by norm_num)).2 999 12 2018
     (by decide)⟩

end DekatrianDateConversion
